import Mathlib

/-!
# Verification of the Candela model's loss and metric arithmetic

Shallow embedding of `modules/model.py` (class `Candela`): the masked
sequence loss `compute_loss`, the phrase-attention supervision loss
`compute_ph_attn_loss`, the masked perplexity metric `compute_ppl`, the
checkpoint reconstruction `load_from_checkpoint`, and the phrase-bank
embedding aggregation from `forward`.

Tensors are embedded as total functions from ℕ-indices to ℝ (junk values
outside the declared ranges are never read by the reductions, which sum over
`Finset.range`).  Machine floats are modelled as real numbers.
-/

open Finset

namespace Candela

noncomputable section

/-- `F.log_softmax(readouts_flat, dim=1)` applied to one row `v` of `C`
class scores, evaluated at class `c`:  `v c - log (Σ_{j<C} exp (v j))`. -/
def log_softmax (C : ℕ) (v : ℕ → ℝ) (c : ℕ) : ℝ :=
  v c - Real.log (∑ j ∈ Finset.range C, Real.exp (v j))

/-- `readouts.view(-1, type_cnt)` on a `(B, T, C)` tensor: flat row `i`
corresponds to batch index `i / T` and position `i % T`. -/
def readouts_flat (T : ℕ) (readouts : ℕ → ℕ → ℕ → ℝ) (i c : ℕ) : ℝ :=
  readouts (i / T) (i % T) c

/-- `targets.view(-1, 1)` on a `(B, T)` integer tensor, flat row `i`. -/
def targets_flat (T : ℕ) (targets : ℕ → ℕ → ℕ) (i : ℕ) : ℕ :=
  targets (i / T) (i % T)

/-- `- torch.gather(log_probs_flat, dim=1, index=dec_targets_flat)`:
per-flat-row negative log-probability at the target class. -/
def losses_flat (T C : ℕ) (readouts : ℕ → ℕ → ℕ → ℝ) (targets : ℕ → ℕ → ℕ)
    (i : ℕ) : ℝ :=
  -(log_softmax C (readouts_flat T readouts i) (targets_flat T targets i))

/-- `losses_flat.view(*targets.size())`: the `(B, T)` loss tensor; entry
`(b, t)` is flat entry `b * T + t`. -/
def losses (T C : ℕ) (readouts : ℕ → ℕ → ℕ → ℝ) (targets : ℕ → ℕ → ℕ)
    (b t : ℕ) : ℝ :=
  losses_flat T C readouts targets (b * T + t)

/-- Modelled from the spec: `utils.get_sequence_mask_from_length` (module
`utils` is not among the provided sources).  Per §4.3 of the spec, a boolean
mask of shape matching the targets, true where the position index is strictly
below that example's true length, false elsewhere. -/
def get_sequence_mask_from_length (seq_len : ℕ → ℕ) (b t : ℕ) : Bool :=
  decide (t < seq_len b)

/-- `.float()` on a boolean tensor entry. -/
def boolFloat (b : Bool) : ℝ :=
  if b then 1 else 0

/-- One example's row of `(losses * mask.float())` summed along the position
axis (the inner part shared by `compute_loss` and `compute_ppl`). -/
def masked_losses_sum (T C : ℕ) (readouts : ℕ → ℕ → ℕ → ℝ)
    (targets : ℕ → ℕ → ℕ) (seq_len : ℕ → ℕ) (b : ℕ) : ℝ :=
  ∑ t ∈ Finset.range T,
    losses T C readouts targets b t *
      boolFloat (get_sequence_mask_from_length seq_len b t)

/-- `Candela.compute_loss(readouts, targets, seq_len, type_cnt)`: flatten,
log-softmax over the class axis, gather at the targets, negate, reshape,
mask, sum everything and divide by `seq_len.float().sum()`. -/
def compute_loss (B T C : ℕ) (readouts : ℕ → ℕ → ℕ → ℝ)
    (targets : ℕ → ℕ → ℕ) (seq_len : ℕ → ℕ) : ℝ :=
  (∑ b ∈ Finset.range B, masked_losses_sum T C readouts targets seq_len b) /
    (∑ b ∈ Finset.range B, (seq_len b : ℝ))

/-- Reference definition following the spec's words (§4.3, claim C1): per
position, the log-probability at the target class under a class-axis
log-softmax, negated; positions at index ≥ the example's true length zeroed;
summed and divided by the sum of all lengths. -/
def spec_masked_nll (B T C : ℕ) (readouts : ℕ → ℕ → ℕ → ℝ)
    (targets : ℕ → ℕ → ℕ) (seq_len : ℕ → ℕ) : ℝ :=
  (∑ b ∈ Finset.range B, ∑ t ∈ Finset.range T,
      if t < seq_len b then -(log_softmax C (readouts b t) (targets b t))
      else 0) /
    (∑ b ∈ Finset.range B, (seq_len b : ℝ))

/-- `Candela.compute_ppl`: the per-example clamped perplexity
`exp (min (Σ_t masked loss / seq_len b) 100)` (lines 124–138 of the source,
viewed at one batch index `b`; the `torch.min` against `100 * ones` is the
element-wise clamp, `torch.exp` the element-wise exponential). -/
def example_ppl (T C : ℕ) (readouts : ℕ → ℕ → ℕ → ℝ) (targets : ℕ → ℕ → ℕ)
    (seq_len : ℕ → ℕ) (b : ℕ) : ℝ :=
  Real.exp
    (min (masked_losses_sum T C readouts targets seq_len b / (seq_len b : ℝ))
      100)

/-- `Candela.compute_ppl(readouts, targets, seq_len)` with
`self.word_vocab_size = C`: per-example masked loss sums, normalized by each
example's own length, clamped at 100, exponentiated, then `torch.mean` over
the batch axis. -/
def compute_ppl (B T C : ℕ) (readouts : ℕ → ℕ → ℕ → ℝ)
    (targets : ℕ → ℕ → ℕ) (seq_len : ℕ → ℕ) : ℝ :=
  (∑ b ∈ Finset.range B, example_ppl T C readouts targets seq_len b) / (B : ℝ)

/-- Reference definition following the spec's words (§4.5, claim C3):
per-position masked negative log-likelihood as in §4.3, summed along each
example's own position axis, divided by that example's own length, clamped
above by the fixed ceiling 100, exponentiated, and averaged across the
batch. -/
def spec_ppl (B T C : ℕ) (readouts : ℕ → ℕ → ℕ → ℝ) (targets : ℕ → ℕ → ℕ)
    (seq_len : ℕ → ℕ) : ℝ :=
  (∑ b ∈ Finset.range B,
      Real.exp
        (min
          ((∑ t ∈ Finset.range T,
              if t < seq_len b then
                -(log_softmax C (readouts b t) (targets b t))
              else 0) /
            (seq_len b : ℝ))
          100)) /
    (B : ℝ)

/-- The logarithm as computed inside `F.binary_cross_entropy`: PyTorch
clamps the log outputs from below at -100 (so `log 0`, which is `-inf` in
floating point, contributes -100). -/
def clamped_log (p : ℝ) : ℝ :=
  if p = 0 then -100 else max (Real.log p) (-100)

/-- One entry of
`F.binary_cross_entropy(input=align_vectors, target=ph_sel_target.float(), reduction='none')`:
`-(y * log p + (1 - y) * log (1 - p))` with the clamped logarithm. -/
def bce_elem (p y : ℝ) : ℝ :=
  -(y * clamped_log p + (1 - y) * clamped_log (1 - p))

/-- `Candela.compute_ph_attn_loss(ph_sel_target, align_vectors, mask)` over
`(S, P)`-shaped (planning step, phrase slot) tensors: element-wise binary
cross-entropy, multiplied by `mask.float()`, summed, divided by
`mask.sum()`. -/
def compute_ph_attn_loss (S P : ℕ)
    (ph_sel_target align_vectors mask : ℕ → ℕ → ℝ) : ℝ :=
  (∑ s ∈ Finset.range S, ∑ j ∈ Finset.range P,
      bce_elem (align_vectors s j) (ph_sel_target s j) * mask s j) /
    (∑ s ∈ Finset.range S, ∑ j ∈ Finset.range P, mask s j)

/-- The exact (unclamped) element-wise binary cross-entropy following the
spec's words (§4.4): `-(y * log p + (1 - y) * log (1 - p))`. -/
def spec_bce (p y : ℝ) : ℝ :=
  -(y * Real.log p + (1 - y) * Real.log (1 - p))

/-- Reference definition following the spec's words (§4.4, claim C5):
element-wise binary cross-entropy, entries at mask-0 pairs zeroed out,
summed, divided by the sum of the mask. -/
def spec_attn_loss (S P : ℕ)
    (ph_sel_target align_vectors mask : ℕ → ℕ → ℝ) : ℝ :=
  (∑ s ∈ Finset.range S, ∑ j ∈ Finset.range P,
      if mask s j = 0 then 0
      else spec_bce (align_vectors s j) (ph_sel_target s j)) /
    (∑ s ∈ Finset.range S, ∑ j ∈ Finset.range P, mask s j)

/-- Phrase-bank embedding aggregation from `forward` (source lines 58–59):
embed each phrase-bank slot's sub-token ids with the shared table and reduce
by `torch.sum(ph_bank_embedded, -2)` along the sub-token axis.  `L` is the
padded sub-token count, `emb` the shared embedding table, `ph_bank` the
sub-token ids; the batch axis is elided since the operation acts per slot. -/
def ph_bank_embedded (L : ℕ) (emb : ℕ → ℕ → ℝ) (ph_bank : ℕ → ℕ → ℕ)
    (slot d : ℕ) : ℝ :=
  ∑ k ∈ Finset.range L, emb (ph_bank slot k) d

/-- The spec's §8 scenario target ids `[[1, 2, 3], [4, pad, pad]]` for a
batch of 2 examples and 3 positions, with an arbitrary pad id. -/
def scenario_targets (pad : ℕ) (b t : ℕ) : ℕ :=
  if b = 0 then (if t = 0 then 1 else if t = 1 then 2 else 3)
  else (if t = 0 then 4 else pad)

/-- The spec's §8 scenario true lengths `[3, 1]`. -/
def scenario_seq_len (b : ℕ) : ℕ :=
  if b = 0 then 3 else 1

/-- Modelled from the spec: a persisted tensor inside a checkpoint section
(§6); only its shape is load-bearing for checkpoint reconstruction, the
entries are opaque parameter values. -/
structure CTensor where
  shape : List ℕ
  data : List ℕ → ℝ

/-- A module's parameters: an ordered association of names to tensors. -/
abbrev StateDict := List (String × CTensor)

/-- Modelled from the spec: checkpoint layout (§6) — a mapping with three
named sections: encoder, sentence-planner and word-decoder parameters. -/
structure Checkpoint where
  encoder : StateDict
  sp_decoder : StateDict
  wd_decoder : StateDict

/-- Two state dicts are shape-compatible: the same parameter names in the
same order, with identical shapes (values are never compared). -/
def shapesMatch (a b : StateDict) : Bool :=
  a.length == b.length &&
    (a.zip b).all fun e => e.1.1 == e.2.1 && e.1.2.shape == e.2.2.shape

/-- Modelled from the spec: `load_state_dict` — replaces a module's
parameters by the section's values; any shape mismatch is a fatal,
unrecoverable error (`none`). -/
def load_state_dict (current sd : StateDict) : Option StateDict :=
  if shapesMatch current sd then some sd else none

/-- The `Candela` model state: the shared embedding table, the dimensions
derived from it, and the three sub-components' parameter dicts. -/
structure Model where
  word_emb : CTensor
  word_emb_dim : ℕ
  word_vocab_size : ℕ
  enc : StateDict
  sp_dec : StateDict
  wd_dec : StateDict

/-- Modelled from the spec: `nn.Embedding.from_pretrained` derives
`num_embeddings` (vocabulary size) and `embedding_dim` from the stored 2-D
weight's shape; a weight of any other rank is rejected. -/
def embedding_from_pretrained (w : CTensor) : Option (ℕ × ℕ) :=
  match w.shape with
  | [v, d] => some (v, d)
  | _ => none

/-- `Candela.__init__` as visible at this level: the three sub-components
are built from the one shared embedding table.  The component internals
(`modules/encoder.py`, `modules/decoder.py`) are not among the provided
sources, so each is abstracted by a function from the shared table to its
freshly constructed parameter dict. -/
def mk_candela (E S W : CTensor → StateDict) (word_emb : CTensor)
    (dim vocab : ℕ) : Model :=
  ⟨word_emb, dim, vocab, E word_emb, S word_emb, W word_emb⟩

/-- `Candela.load_from_checkpoint(path)`: rebuild the embedding table from
the checkpoint's stored `encoder["embedding.weight"]`, derive the embedding
dimension and vocabulary size from its shape, construct the model with the
shared table, and load each sub-component's own section (fatal on shape
mismatch). -/
def load_from_checkpoint (E S W : CTensor → StateDict) (ckpt : Checkpoint) :
    Option Model := do
  let w ← List.lookup ("embedding.weight") ckpt.encoder
  let (v, d) ← embedding_from_pretrained w
  let model := mk_candela E S W w d v
  let enc ← load_state_dict model.enc ckpt.encoder
  let sp ← load_state_dict model.sp_dec ckpt.sp_decoder
  let wd ← load_state_dict model.wd_dec ckpt.wd_decoder
  some { model with enc := enc, sp_dec := sp, wd_dec := wd }

end

end Candela

namespace Candela

lemma losses_eq_of_lt (T C : ℕ) (readouts : ℕ → ℕ → ℕ → ℝ)
    (targets : ℕ → ℕ → ℕ) (b t : ℕ) (h : t < T) :
    losses T C readouts targets b t =
      -(log_softmax C (readouts b t) (targets b t)) := by
  have hT : 0 < T := lt_of_le_of_lt (Nat.zero_le t) h
  have hdiv : (b * T + t) / T = b := by
    rw [Nat.add_comm, Nat.add_mul_div_right t b hT, Nat.div_eq_of_lt h,
      Nat.zero_add]
  have hmod : (b * T + t) % T = t := by
    rw [Nat.add_comm, Nat.add_mul_mod_self_right, Nat.mod_eq_of_lt h]
  have hrow : readouts_flat T readouts (b * T + t) = readouts b t :=
    funext fun c => by simp only [readouts_flat, hdiv, hmod]
  simp only [losses, losses_flat, targets_flat, hdiv, hmod, hrow]

lemma masked_losses_sum_eq_spec (T C : ℕ) (readouts : ℕ → ℕ → ℕ → ℝ)
    (targets : ℕ → ℕ → ℕ) (seq_len : ℕ → ℕ) (b : ℕ) :
    masked_losses_sum T C readouts targets seq_len b =
      ∑ t ∈ Finset.range T,
        if t < seq_len b then -(log_softmax C (readouts b t) (targets b t))
        else 0 := by
  refine Finset.sum_congr rfl fun t ht => ?_
  rw [losses_eq_of_lt T C readouts targets b t (Finset.mem_range.mp ht)]
  by_cases h : t < seq_len b <;>
    simp [boolFloat, get_sequence_mask_from_length, h]

lemma compute_loss_eq_spec (B T C : ℕ) (readouts : ℕ → ℕ → ℕ → ℝ)
    (targets : ℕ → ℕ → ℕ) (seq_len : ℕ → ℕ) :
    compute_loss B T C readouts targets seq_len =
      spec_masked_nll B T C readouts targets seq_len := by
  unfold compute_loss spec_masked_nll
  congr 1
  exact Finset.sum_congr rfl fun b _ =>
    masked_losses_sum_eq_spec T C readouts targets seq_len b

lemma neg_log_softmax_nonneg (C : ℕ) (v : ℕ → ℝ) (c : ℕ) (hc : c < C) :
    0 ≤ -(log_softmax C v c) := by
  have hpos : 0 < ∑ j ∈ Finset.range C, Real.exp (v j) :=
    Finset.sum_pos (fun j _ => Real.exp_pos (v j))
      ⟨c, Finset.mem_range.mpr hc⟩
  have hle : Real.exp (v c) ≤ ∑ j ∈ Finset.range C, Real.exp (v j) :=
    Finset.single_le_sum (fun j _ => (Real.exp_pos (v j)).le)
      (Finset.mem_range.mpr hc)
  have hlog : v c ≤ Real.log (∑ j ∈ Finset.range C, Real.exp (v j)) :=
    (Real.le_log_iff_exp_le hpos).mpr hle
  simp only [log_softmax, neg_sub, sub_nonneg]
  exact hlog

lemma clamped_log_eq_log (p : ℝ) (hp : Real.exp (-100) ≤ p) :
    clamped_log p = Real.log p := by
  have hpos : 0 < p := lt_of_lt_of_le (Real.exp_pos _) hp
  rw [clamped_log, if_neg hpos.ne']
  exact max_eq_left ((Real.le_log_iff_exp_le hpos).mpr hp)

lemma exp_neg_hundred_le_half : Real.exp (-100) ≤ 1 / 2 := by
  have h : (101 : ℝ) ≤ Real.exp 100 := by
    have := Real.add_one_le_exp (100 : ℝ)
    linarith
  rw [Real.exp_neg]
  have h2 : ((2 : ℝ))⁻¹ = 1 / 2 := by norm_num
  rw [← h2]
  exact inv_anti₀ (by norm_num) (by linarith)

lemma log_softmax_const (C : ℕ) (x : ℝ) (c : ℕ) (hC : C ≠ 0) :
    log_softmax C (fun _ => x) c = -(Real.log (C : ℝ)) := by
  unfold log_softmax
  rw [Finset.sum_const, Finset.card_range, nsmul_eq_mul,
    Real.log_mul (Nat.cast_ne_zero.mpr hC) (Real.exp_ne_zero x),
    Real.log_exp]
  ring

end Candela

/-- Claim C1: for every batch of per-position score readouts over `type_cnt`
classes, positionally aligned integer class targets, and true sequence
lengths, `compute_loss` equals the reference masked negative log-likelihood:
log-softmax over the class axis, log-probability at each position's target
class negated, positions at index ≥ the example's true length zeroed by the
boolean mask, masked losses summed and divided by the sum of all lengths. -/
theorem Candela.compute_loss_is_masked_nll (B T C : ℕ)
    (readouts : ℕ → ℕ → ℕ → ℝ) (targets : ℕ → ℕ → ℕ) (seq_len : ℕ → ℕ) :
    Candela.compute_loss B T C readouts targets seq_len =
      Candela.spec_masked_nll B T C readouts targets seq_len :=
  Candela.compute_loss_eq_spec B T C readouts targets seq_len

/-- Claim C2: for two batches agreeing on lengths and on all readout and
target entries at positions strictly before each example's true length
(with targets there in the valid class range), differing only at or beyond
the true length, `compute_loss` returns the same value. -/
theorem Candela.compute_loss_pad_invariant (B T C : ℕ)
    (r₁ r₂ : ℕ → ℕ → ℕ → ℝ) (t₁ t₂ : ℕ → ℕ → ℕ) (seq_len : ℕ → ℕ)
    (hr : ∀ b < B, ∀ t < T, t < seq_len b → ∀ c < C, r₁ b t c = r₂ b t c)
    (ht : ∀ b < B, ∀ t < T, t < seq_len b → t₁ b t = t₂ b t)
    (hv : ∀ b < B, ∀ t < T, t < seq_len b → t₁ b t < C) :
    Candela.compute_loss B T C r₁ t₁ seq_len =
      Candela.compute_loss B T C r₂ t₂ seq_len := by
  rw [Candela.compute_loss_eq_spec, Candela.compute_loss_eq_spec]
  unfold Candela.spec_masked_nll
  congr 1
  refine Finset.sum_congr rfl fun b hb => Finset.sum_congr rfl fun t htm => ?_
  have hbB : b < B := Finset.mem_range.mp hb
  have htT : t < T := Finset.mem_range.mp htm
  by_cases hlt : t < seq_len b
  · have htg := ht b hbB t htT hlt
    have hcls : t₁ b t < C := hv b hbB t htT hlt
    have hsm : Candela.log_softmax C (r₁ b t) (t₁ b t) =
        Candela.log_softmax C (r₂ b t) (t₂ b t) := by
      unfold Candela.log_softmax
      rw [← htg, hr b hbB t htT hlt (t₁ b t) hcls]
      congr 2
      exact Finset.sum_congr rfl fun c hc => by
        rw [hr b hbB t htT hlt c (Finset.mem_range.mp hc)]
    rw [if_pos hlt, if_pos hlt, hsm]
  · rw [if_neg hlt, if_neg hlt]

/-- Witness for C2: a concrete single-example batch of two positions with
true length 1, where the second batch's readouts and target differ only at
the padded position 1; the loss is unchanged. -/
theorem Candela.compute_loss_pad_invariant_witness :
    Candela.compute_loss 1 2 2 (fun _ _ _ => 0) (fun _ _ => 0) (fun _ => 1) =
      Candela.compute_loss 1 2 2 (fun _ t _ => if t = 1 then 7 else 0)
        (fun _ t => if t = 1 then 1 else 0) (fun _ => 1) :=
  Candela.compute_loss_pad_invariant 1 2 2 _ _ _ _ _
    (by
      intro b _ t _ hlt c _
      have h0 : t = 0 := Nat.lt_one_iff.mp hlt
      subst h0
      norm_num)
    (by
      intro b _ t _ hlt
      have h0 : t = 0 := Nat.lt_one_iff.mp hlt
      subst h0
      norm_num)
    (by
      intro b _ t _ _
      norm_num)

/-- Claim C3: `compute_ppl` computes per-position masked negative
log-likelihood exactly as `compute_loss` does, sums along each example's own
position axis, divides by that example's own length, clamps above by the
constant 100, exponentiates, and averages the per-example perplexities
across the batch. -/
theorem Candela.compute_ppl_is_spec_ppl (B T C : ℕ)
    (readouts : ℕ → ℕ → ℕ → ℝ) (targets : ℕ → ℕ → ℕ) (seq_len : ℕ → ℕ)
    (hlen : ∀ b < B, 0 < seq_len b) :
    Candela.compute_ppl B T C readouts targets seq_len =
      Candela.spec_ppl B T C readouts targets seq_len := by
  unfold Candela.compute_ppl Candela.spec_ppl Candela.example_ppl
  congr 1
  exact Finset.sum_congr rfl fun b _ => by
    rw [Candela.masked_losses_sum_eq_spec]

/-- Witness for C3: the perplexity decomposition at a concrete one-example,
one-position, one-class batch of length 1. -/
theorem Candela.compute_ppl_is_spec_ppl_witness :
    Candela.compute_ppl 1 1 1 (fun _ _ _ => 0) (fun _ _ => 0) (fun _ => 1) =
      Candela.spec_ppl 1 1 1 (fun _ _ _ => 0) (fun _ _ => 0) (fun _ => 1) :=
  Candela.compute_ppl_is_spec_ppl 1 1 1 _ _ _ (by intro b _; norm_num)

/-- Claim C4: for an example with positive true length and valid target ids,
the per-example perplexity computed inside `compute_ppl` after clamping is
at least 1 and at most `exp 100`, for any word-level readouts. -/
theorem Candela.example_ppl_bounds (T C : ℕ) (readouts : ℕ → ℕ → ℕ → ℝ)
    (targets : ℕ → ℕ → ℕ) (seq_len : ℕ → ℕ) (b : ℕ)
    (hlen : 0 < seq_len b) (htg : ∀ t < T, targets b t < C) :
    1 ≤ Candela.example_ppl T C readouts targets seq_len b ∧
      Candela.example_ppl T C readouts targets seq_len b ≤ Real.exp 100 := by
  have hsum : 0 ≤ Candela.masked_losses_sum T C readouts targets seq_len b := by
    rw [Candela.masked_losses_sum_eq_spec]
    refine Finset.sum_nonneg fun t htm => ?_
    by_cases hlt : t < seq_len b
    · rw [if_pos hlt]
      exact Candela.neg_log_softmax_nonneg C _ _ (htg t (Finset.mem_range.mp htm))
    · rw [if_neg hlt]
  have hq : 0 ≤
      Candela.masked_losses_sum T C readouts targets seq_len b /
        (seq_len b : ℝ) :=
    div_nonneg hsum (Nat.cast_nonneg _)
  unfold Candela.example_ppl
  constructor
  · rw [show (1 : ℝ) = Real.exp 0 from Real.exp_zero.symm]
    exact Real.exp_le_exp.mpr (le_min hq (by norm_num))
  · exact Real.exp_le_exp.mpr (min_le_right _ _)

/-- Witness for C4: the bounds at a concrete example of length 1 with a
single class and zero readouts. -/
theorem Candela.example_ppl_bounds_witness :
    1 ≤ Candela.example_ppl 1 1 (fun _ _ _ => 0) (fun _ _ => 0) (fun _ => 1) 0 ∧
      Candela.example_ppl 1 1 (fun _ _ _ => 0) (fun _ _ => 0) (fun _ => 1) 0 ≤
        Real.exp 100 :=
  Candela.example_ppl_bounds 1 1 _ _ _ 0 (by norm_num) (by intro t _; norm_num)

/-- Counterexample for C5 as stated: `F.binary_cross_entropy` clamps its log
outputs at -100, so for an attention probability of `exp (-200)` (which lies
in `[0,1]`) against indicator 1 with mask 1, `compute_ph_attn_loss` returns
100 while the exact element-wise binary cross-entropy gives 200. -/
theorem Candela.compute_ph_attn_loss_clamp_counterexample :
    Candela.compute_ph_attn_loss 1 1 (fun _ _ => 1)
        (fun _ _ => Real.exp (-200)) (fun _ _ => 1) ≠
      Candela.spec_attn_loss 1 1 (fun _ _ => 1)
        (fun _ _ => Real.exp (-200)) (fun _ _ => 1) := by
  have hcl : Candela.clamped_log (Real.exp (-200)) = -100 := by
    rw [Candela.clamped_log, if_neg (Real.exp_ne_zero _), Real.log_exp]
    norm_num
  have h1 : Candela.compute_ph_attn_loss 1 1 (fun _ _ => 1)
      (fun _ _ => Real.exp (-200)) (fun _ _ => 1) = 100 := by
    unfold Candela.compute_ph_attn_loss Candela.bce_elem
    simp only [Finset.sum_range_one, hcl]
    norm_num
  have h2 : Candela.spec_attn_loss 1 1 (fun _ _ => 1)
      (fun _ _ => Real.exp (-200)) (fun _ _ => 1) = 200 := by
    unfold Candela.spec_attn_loss Candela.spec_bce
    simp only [Finset.sum_range_one, if_neg (one_ne_zero (α := ℝ)),
      Real.log_exp]
    norm_num
  rw [h1, h2]
  norm_num

/-- Claim C5 (amended): for binary phrase-selection indicator targets, a 0-1
validity mask, and attention probabilities whose entries lie in
`[exp (-100), 1 - exp (-100)]` (so that no log term falls below the -100
clamp of `F.binary_cross_entropy`), `compute_ph_attn_loss` equals the exact
element-wise binary cross-entropy with mask-0 pairs zeroed out, summed, and
divided by the sum of the mask. -/
theorem Candela.compute_ph_attn_loss_is_masked_bce (S P : ℕ)
    (ph_sel_target align_vectors mask : ℕ → ℕ → ℝ)
    (htgt : ∀ s < S, ∀ j < P, ph_sel_target s j = 0 ∨ ph_sel_target s j = 1)
    (hmask : ∀ s < S, ∀ j < P, mask s j = 0 ∨ mask s j = 1)
    (haln : ∀ s < S, ∀ j < P, Real.exp (-100) ≤ align_vectors s j ∧
        align_vectors s j ≤ 1 - Real.exp (-100)) :
    Candela.compute_ph_attn_loss S P ph_sel_target align_vectors mask =
      Candela.spec_attn_loss S P ph_sel_target align_vectors mask := by
  unfold Candela.compute_ph_attn_loss Candela.spec_attn_loss
  congr 1
  refine Finset.sum_congr rfl fun s hs => Finset.sum_congr rfl fun j hj => ?_
  have hsS : s < S := Finset.mem_range.mp hs
  have hjP : j < P := Finset.mem_range.mp hj
  obtain ⟨hlo, hhi⟩ := haln s hsS j hjP
  have hb : Candela.bce_elem (align_vectors s j) (ph_sel_target s j) =
      Candela.spec_bce (align_vectors s j) (ph_sel_target s j) := by
    unfold Candela.bce_elem Candela.spec_bce
    rw [Candela.clamped_log_eq_log _ hlo,
      Candela.clamped_log_eq_log (1 - align_vectors s j) (by linarith)]
  rcases hmask s hsS j hjP with h0 | h1
  · rw [h0, if_pos rfl, mul_zero]
  · rw [h1, if_neg (one_ne_zero (α := ℝ)), mul_one, hb]

/-- Witness for the amended C5: a single valid (step, slot) pair with
indicator 1 and attention probability 1/2. -/
theorem Candela.compute_ph_attn_loss_is_masked_bce_witness :
    Candela.compute_ph_attn_loss 1 1 (fun _ _ => 1) (fun _ _ => 1 / 2)
        (fun _ _ => 1) =
      Candela.spec_attn_loss 1 1 (fun _ _ => 1) (fun _ _ => 1 / 2)
        (fun _ _ => 1) :=
  Candela.compute_ph_attn_loss_is_masked_bce 1 1 _ _ _
    (by intro s _ j _; right; rfl)
    (by intro s _ j _; right; rfl)
    (by
      intro s _ j _
      have h := Candela.exp_neg_hundred_le_half
      constructor
      · linarith
      · linarith)

/-- Claim C6: for every checkpoint whose encoder section stores an
embedding-weight entry of shape `[V, D]`, `load_from_checkpoint` succeeds
exactly when all three sections are shape-compatible with the freshly
constructed model built around that stored table, and on success the
reconstructed model's table is the stored weight, its vocabulary size and
embedding dimension are the two components of the weight's shape (they are
not inputs of `load_from_checkpoint`), the three sub-components were
constructed from that same table, and each sub-component holds its own
loaded section. -/
theorem Candela.load_from_checkpoint_spec
    (E S W : Candela.CTensor → Candela.StateDict) (ckpt : Candela.Checkpoint)
    (w : Candela.CTensor) (V D : ℕ)
    (hw : List.lookup ("embedding.weight") ckpt.encoder = some w)
    (hs : w.shape = [V, D]) :
    ((Candela.load_from_checkpoint E S W ckpt).isSome ↔
      (Candela.shapesMatch (E w) ckpt.encoder = true ∧
        Candela.shapesMatch (S w) ckpt.sp_decoder = true ∧
        Candela.shapesMatch (W w) ckpt.wd_decoder = true)) ∧
      ∀ m, Candela.load_from_checkpoint E S W ckpt = some m →
        m.word_emb = w ∧ m.word_vocab_size = V ∧ m.word_emb_dim = D ∧
          m.enc = ckpt.encoder ∧ m.sp_dec = ckpt.sp_decoder ∧
          m.wd_dec = ckpt.wd_decoder := by
  have he : Candela.embedding_from_pretrained w = some (V, D) := by
    unfold Candela.embedding_from_pretrained
    rw [hs]
  by_cases h1 : Candela.shapesMatch (E w) ckpt.encoder = true
  · by_cases h2 : Candela.shapesMatch (S w) ckpt.sp_decoder = true
    · by_cases h3 : Candela.shapesMatch (W w) ckpt.wd_decoder = true
      · constructor
        · simp [Candela.load_from_checkpoint, hw, he, Candela.mk_candela,
            Candela.load_state_dict, h1, h2, h3]
        · intro m hm
          simp only [Candela.load_from_checkpoint, hw, he,
            Candela.mk_candela, Candela.load_state_dict, h1, h2, h3,
            Option.bind_eq_bind, Option.some_bind, if_true] at hm
          obtain rfl := (Option.some_inj.mp hm).symm
          exact ⟨rfl, rfl, rfl, rfl, rfl, rfl⟩
      · constructor
        · simp [Candela.load_from_checkpoint, hw, he, Candela.mk_candela,
            Candela.load_state_dict, h1, h2, h3]
        · intro m hm
          simp [Candela.load_from_checkpoint, hw, he, Candela.mk_candela,
            Candela.load_state_dict, h1, h2, h3] at hm
    · constructor
      · simp [Candela.load_from_checkpoint, hw, he, Candela.mk_candela,
          Candela.load_state_dict, h1, h2]
      · intro m hm
        simp [Candela.load_from_checkpoint, hw, he, Candela.mk_candela,
          Candela.load_state_dict, h1, h2] at hm
  · constructor
    · simp [Candela.load_from_checkpoint, hw, he, Candela.mk_candela,
        Candela.load_state_dict, h1]
    · intro m hm
      simp [Candela.load_from_checkpoint, hw, he, Candela.mk_candela,
        Candela.load_state_dict, h1] at hm

/-- Witness for C6: a one-parameter checkpoint holding only a `[1, 1]`
embedding weight, with trivial planner and word-decoder sections. -/
theorem Candela.load_from_checkpoint_spec_witness :
    ((Candela.load_from_checkpoint
          (fun t => [(("embedding.weight"), t)]) (fun _ => []) (fun _ => [])
          (Candela.Checkpoint.mk
            [(("embedding.weight"), Candela.CTensor.mk [1, 1] (fun _ => 0))]
            [] [])).isSome ↔
      (Candela.shapesMatch
          [(("embedding.weight"), Candela.CTensor.mk [1, 1] (fun _ => 0))]
          [(("embedding.weight"), Candela.CTensor.mk [1, 1] (fun _ => 0))] =
            true ∧
        Candela.shapesMatch [] [] = true ∧
        Candela.shapesMatch [] [] = true)) ∧
      ∀ m, Candela.load_from_checkpoint
            (fun t => [(("embedding.weight"), t)]) (fun _ => []) (fun _ => [])
            (Candela.Checkpoint.mk
              [(("embedding.weight"), Candela.CTensor.mk [1, 1] (fun _ => 0))]
              [] []) = some m →
        m.word_emb = Candela.CTensor.mk [1, 1] (fun _ => 0) ∧
          m.word_vocab_size = 1 ∧ m.word_emb_dim = 1 ∧
          m.enc =
            [(("embedding.weight"), Candela.CTensor.mk [1, 1] (fun _ => 0))] ∧
          m.sp_dec = [] ∧ m.wd_dec = [] :=
  Candela.load_from_checkpoint_spec
    (fun t => [(("embedding.weight"), t)]) (fun _ => []) (fun _ => [])
    (Candela.Checkpoint.mk
      [(("embedding.weight"), Candela.CTensor.mk [1, 1] (fun _ => 0))] [] [])
    (Candela.CTensor.mk [1, 1] (fun _ => 0)) 1 1 rfl rfl

/-- Claim C7: when the batch has at least one valid position (positive total
length) and at least one valid (step, slot) pair (positive mask sum), the
normalizing denominators of `compute_loss` and `compute_ph_attn_loss` are
nonzero, and each function is exactly its masked numerator divided by that
nonzero denominator. -/
theorem Candela.loss_denominators_nonzero (B T C : ℕ)
    (readouts : ℕ → ℕ → ℕ → ℝ) (targets : ℕ → ℕ → ℕ) (seq_len : ℕ → ℕ)
    (S P : ℕ) (ph_sel_target align_vectors mask : ℕ → ℕ → ℝ)
    (h1 : 0 < ∑ b ∈ Finset.range B, seq_len b)
    (h2 : 0 < ∑ s ∈ Finset.range S, ∑ j ∈ Finset.range P, mask s j) :
    (∑ b ∈ Finset.range B, (seq_len b : ℝ)) ≠ 0 ∧
      (∑ s ∈ Finset.range S, ∑ j ∈ Finset.range P, mask s j) ≠ 0 ∧
      Candela.compute_loss B T C readouts targets seq_len *
          (∑ b ∈ Finset.range B, (seq_len b : ℝ)) =
        ∑ b ∈ Finset.range B,
          Candela.masked_losses_sum T C readouts targets seq_len b ∧
      Candela.compute_ph_attn_loss S P ph_sel_target align_vectors mask *
          (∑ s ∈ Finset.range S, ∑ j ∈ Finset.range P, mask s j) =
        ∑ s ∈ Finset.range S, ∑ j ∈ Finset.range P,
          Candela.bce_elem (align_vectors s j) (ph_sel_target s j) *
            mask s j := by
  have hd1 : (∑ b ∈ Finset.range B, (seq_len b : ℝ)) ≠ 0 := by
    have hpos : (0 : ℝ) < ∑ b ∈ Finset.range B, (seq_len b : ℝ) := by
      rw [← Nat.cast_sum]
      exact_mod_cast h1
    exact hpos.ne'
  have hd2 : (∑ s ∈ Finset.range S, ∑ j ∈ Finset.range P, mask s j) ≠ 0 :=
    h2.ne'
  refine ⟨hd1, hd2, ?_, ?_⟩
  · unfold Candela.compute_loss
    exact div_mul_cancel₀ _ hd1
  · unfold Candela.compute_ph_attn_loss
    exact div_mul_cancel₀ _ hd2

/-- Witness for C7: a one-example batch of length 1 and a single
all-valid attention pair; both denominators are nonzero and both losses
recover their masked numerators. -/
theorem Candela.loss_denominators_nonzero_witness :
    (∑ b ∈ Finset.range 1, (((fun _ => 1) : ℕ → ℕ) b : ℝ)) ≠ 0 ∧
      (∑ s ∈ Finset.range 1, ∑ j ∈ Finset.range 1,
          ((fun _ _ => 1) : ℕ → ℕ → ℝ) s j) ≠ 0 ∧
      Candela.compute_loss 1 1 1 (fun _ _ _ => 0) (fun _ _ => 0) (fun _ => 1) *
          (∑ b ∈ Finset.range 1, (((fun _ => 1) : ℕ → ℕ) b : ℝ)) =
        ∑ b ∈ Finset.range 1,
          Candela.masked_losses_sum 1 1 (fun _ _ _ => 0) (fun _ _ => 0)
            (fun _ => 1) b ∧
      Candela.compute_ph_attn_loss 1 1 (fun _ _ => 1) (fun _ _ => 1 / 2)
            (fun _ _ => 1) *
          (∑ s ∈ Finset.range 1, ∑ j ∈ Finset.range 1,
            ((fun _ _ => 1) : ℕ → ℕ → ℝ) s j) =
        ∑ s ∈ Finset.range 1, ∑ j ∈ Finset.range 1,
          Candela.bce_elem (((fun _ _ => 1 / 2) : ℕ → ℕ → ℝ) s j)
              (((fun _ _ => 1) : ℕ → ℕ → ℝ) s j) *
            ((fun _ _ => 1) : ℕ → ℕ → ℝ) s j :=
  Candela.loss_denominators_nonzero 1 1 1 (fun _ _ _ => 0) (fun _ _ => 0)
    (fun _ => 1) 1 1 (fun _ _ => 1) (fun _ _ => 1 / 2) (fun _ _ => 1)
    (by simp) (by norm_num)

/-- Claim C8: in the spec's §8 scenario (batch of 2 examples, lengths
`[3, 1]`, vocabulary size 5, targets `[[1, 2, 3], [4, pad, pad]]`) with any
readouts that are constant across the 5 classes at each position (so the
log-softmax is uniform), every valid position's per-token loss is `log 5`
and the total normalized loss is exactly `log 5`. -/
theorem Candela.compute_loss_uniform_scenario (f : ℕ → ℕ → ℝ) (pad : ℕ) :
    Candela.losses 3 5 (fun b t _ => f b t) (Candela.scenario_targets pad)
        0 0 = Real.log 5 ∧
      Candela.losses 3 5 (fun b t _ => f b t) (Candela.scenario_targets pad)
        0 1 = Real.log 5 ∧
      Candela.losses 3 5 (fun b t _ => f b t) (Candela.scenario_targets pad)
        0 2 = Real.log 5 ∧
      Candela.losses 3 5 (fun b t _ => f b t) (Candela.scenario_targets pad)
        1 0 = Real.log 5 ∧
      Candela.compute_loss 2 3 5 (fun b t _ => f b t)
        (Candela.scenario_targets pad) Candela.scenario_seq_len =
          Real.log 5 := by
  have hnll : ∀ b t : ℕ, t < 3 →
      Candela.losses 3 5 (fun b t _ => f b t) (Candela.scenario_targets pad)
        b t = Real.log 5 := by
    intro b t ht
    rw [Candela.losses_eq_of_lt _ _ _ _ _ _ ht]
    show -(Candela.log_softmax 5 (fun _ => f b t)
      (Candela.scenario_targets pad b t)) = Real.log 5
    rw [Candela.log_softmax_const 5 (f b t)
      (Candela.scenario_targets pad b t) (by norm_num), neg_neg]
    norm_num
  refine ⟨hnll 0 0 (by norm_num), hnll 0 1 (by norm_num),
    hnll 0 2 (by norm_num), hnll 1 0 (by norm_num), ?_⟩
  unfold Candela.compute_loss Candela.masked_losses_sum
  simp only [Finset.sum_range_succ, Finset.sum_range_zero]
  rw [hnll 0 0 (by norm_num), hnll 0 1 (by norm_num), hnll 0 2 (by norm_num),
    hnll 1 0 (by norm_num), hnll 1 1 (by norm_num), hnll 1 2 (by norm_num)]
  simp only [Candela.get_sequence_mask_from_length, Candela.boolFloat,
    Candela.scenario_seq_len]
  norm_num
  ring

/-- Claim C9: the phrase-bank aggregation is invariant under any permutation
of the sub-token order within each phrase, permuting the phrase slots
permutes the rows of the per-slot embedding matrix, and slot permutation is
not an invariance: a concrete bank changes its slot-0 embedding when its two
phrases are swapped. -/
theorem Candela.ph_bank_embedded_permutation (L : ℕ) (emb : ℕ → ℕ → ℝ)
    (bank : ℕ → ℕ → ℕ) (σ : Equiv.Perm ℕ) (hσ : ∀ k, k < L ↔ σ k < L) :
    (∀ slot d, Candela.ph_bank_embedded L emb (fun s k => bank s (σ k))
        slot d = Candela.ph_bank_embedded L emb bank slot d) ∧
      (∀ (π : ℕ → ℕ) (slot d : ℕ),
        Candela.ph_bank_embedded L emb (fun s k => bank (π s) k) slot d =
          Candela.ph_bank_embedded L emb bank (π slot) d) ∧
      Candela.ph_bank_embedded 1 (fun tok _ => (tok : ℝ)) (fun s _ => 1 - s)
          0 0 ≠
        Candela.ph_bank_embedded 1 (fun tok _ => (tok : ℝ)) (fun s _ => s)
          0 0 := by
  refine ⟨?_, ?_, ?_⟩
  · intro slot d
    unfold Candela.ph_bank_embedded
    exact Finset.sum_equiv σ
      (fun i => by simpa [Finset.mem_range] using hσ i) (fun i _ => rfl)
  · intro π slot d
    rfl
  · unfold Candela.ph_bank_embedded
    simp

/-- Witness for C9: the permutation statements at a concrete bank of one
sub-token per phrase and the identity permutation. -/
theorem Candela.ph_bank_embedded_permutation_witness :
    (∀ slot d, Candela.ph_bank_embedded 1 (fun tok _ => (tok : ℝ))
        (fun s k => s + (Equiv.refl ℕ) k) slot d =
      Candela.ph_bank_embedded 1 (fun tok _ => (tok : ℝ))
        (fun s k => s + k) slot d) ∧
      (∀ (π : ℕ → ℕ) (slot d : ℕ),
        Candela.ph_bank_embedded 1 (fun tok _ => (tok : ℝ))
            (fun s k => π s + k) slot d =
          Candela.ph_bank_embedded 1 (fun tok _ => (tok : ℝ))
            (fun s k => s + k) (π slot) d) ∧
      Candela.ph_bank_embedded 1 (fun tok _ => (tok : ℝ)) (fun s _ => 1 - s)
          0 0 ≠
        Candela.ph_bank_embedded 1 (fun tok _ => (tok : ℝ)) (fun s _ => s)
          0 0 :=
  Candela.ph_bank_embedded_permutation 1 (fun tok _ => (tok : ℝ))
    (fun s k => s + k) (Equiv.refl ℕ) (fun _ => Iff.rfl)

/-- Claim C10: on a single-example batch with positive true length,
`compute_ppl` is exactly the exponential of the training word loss clamped
at 100: `exp (min (compute_loss) 100)` (the per-example mean and the
token-weighted mean coincide when the batch has one example). -/
theorem Candela.compute_ppl_single_batch (T C : ℕ)
    (readouts : ℕ → ℕ → ℕ → ℝ) (targets : ℕ → ℕ → ℕ) (seq_len : ℕ → ℕ)
    (hlen : 0 < seq_len 0) :
    Candela.compute_ppl 1 T C readouts targets seq_len =
      Real.exp
        (min (Candela.compute_loss 1 T C readouts targets seq_len) 100) := by
  unfold Candela.compute_ppl Candela.compute_loss Candela.example_ppl
  rw [Finset.sum_range_one, Finset.sum_range_one, Finset.sum_range_one]
  norm_num

/-- Witness for C10: the identity at a concrete one-example batch of length
1 with a single class and zero readouts. -/
theorem Candela.compute_ppl_single_batch_witness :
    Candela.compute_ppl 1 1 1 (fun _ _ _ => 0) (fun _ _ => 0) (fun _ => 1) =
      Real.exp
        (min (Candela.compute_loss 1 1 1 (fun _ _ _ => 0) (fun _ _ => 0)
          (fun _ => 1)) 100) :=
  Candela.compute_ppl_single_batch 1 1 _ _ _ (by norm_num)
